import Mathlib

/-!
Verification development for the scavenger-hunt scoring engine
(`hunt/apps/main/models.py`, `hunt/apps/main/views.py`,
`hunt/apps/main/admin.py`, `hunt/apps/logging/models.py`,
`hunt/apps/logging/admin.py`).

The Django data model is embedded shallowly: each model row becomes a Lean
structure, the database becomes explicit lists of rows inside `State`, and
each operation (flag validation, admin invalidation, prerequisite edits)
becomes a pure state-transforming function translated line by line from the
Python source.  Timestamps are naturals supplied by the caller, mirroring
`timezone.now()`.  Floating-point decay arithmetic is modelled in exact
rational arithmetic with Python's round-half-to-even rounding.
-/

namespace Scav

/-- One row of `main.Challenge` (src/hunt/apps/main/models.py, lines 23-72).
Presentation fields (name, description, category, order) and the release
gate (`unblocked`, `timed_release`, `release_time`) are not part of the
modelled engine; `required_challenges` is the set of prerequisite challenge
ids of the self-referential many-to-many field. -/
structure Challenge where
  cid : Nat
  flag : String
  points : Int
  challenge_type : String
  exclusive : Bool
  decay_percentage : Int
  locked : Bool
  required_challenges : Finset Nat
  required_challenges_count : Nat
deriving DecidableEq

/-- One row of `main.Class` (models.py, lines 187-203): a cohort with its
`challenges_completed` many-to-many set. -/
structure ClassObj where
  year : String
  challenges_completed : Finset Nat
deriving DecidableEq

/-- The engine-relevant part of a user row: graduation year (the cohort
key, always used as `str(user.graduation_year)`) and the `challenges_done`
many-to-many set. -/
structure UserObj where
  uid : Nat
  graduation_year : String
  challenges_done : Finset Nat
deriving DecidableEq

/-- One row of `logging.ChallengeCompletion` (src/hunt/apps/logging/models.py,
lines 75-97).  `cid` is the auto primary key; the model declares
`unique_together = ["user", "challenge"]`. -/
structure Completion where
  cid : Nat
  user : Nat
  challenge : Nat
  class_year : String
  timestamp : Nat
  points_earned : Int
  first_completion_for_class : Bool
deriving DecidableEq

/-- One row of `logging.FlagSubmission` (logging/models.py, lines 44-68)
together with the invalidation columns (`invalidated`, `invalidated_by`,
`invalidated_at`) that `logging/admin.py` lines 199-206 and
`logging/views.py` read and write (spec section 3, SubmissionRecord). -/
structure Submission where
  sid : Nat
  user : Nat
  challenge : Nat
  is_correct : Bool
  points_awarded : Int
  invalidated : Bool
  invalidated_by : Option Nat
  invalidated_at : Option Nat
deriving DecidableEq

/-- The persistent store: one list of rows per model. -/
structure State where
  challenges : List Challenge
  classes : List ClassObj
  users : List UserObj
  completions : List Completion
  submissions : List Submission
deriving DecidableEq

/-- `Challenge.objects.get(id=...)`. -/
def find_challenge (s : State) (cid : Nat) : Option Challenge :=
  s.challenges.find? (fun c => c.cid == cid)

/-- `Class.objects.get(year=...)`. -/
def find_class (s : State) (year : String) : Option ClassObj :=
  s.classes.find? (fun c => c.year == year)

/-- Lookup of a user row by primary key. -/
def find_user (s : State) (uid : Nat) : Option UserObj :=
  s.users.find? (fun u => u.uid == uid)

/-- `Challenge.is_exclusive` (models.py, lines 101-104): the deprecated
boolean or the new type string. -/
def is_exclusive (c : Challenge) : Bool :=
  c.exclusive || c.challenge_type == "exclusive"

/-- `Challenge.is_decreasing` (models.py, lines 106-109). -/
def is_decreasing (c : Challenge) : Bool :=
  c.challenge_type == "decreasing"

/-- `Challenge.is_unlocking` (models.py, lines 111-114). -/
def is_unlocking (c : Challenge) : Bool :=
  c.challenge_type == "unlocking"

/-- Python's built-in `round`: round half to even.  The source evaluates the
decay product in IEEE floating point; the model uses the same real-number
formula in exact rational arithmetic. -/
def pyRound (q : ℚ) : ℤ :=
  if q - ⌊q⌋ < 1/2 then ⌊q⌋
  else if 1/2 < q - ⌊q⌋ then ⌊q⌋ + 1
  else if ⌊q⌋ % 2 = 0 then ⌊q⌋ else ⌊q⌋ + 1

/-- `Challenge._completed_classes_count` (models.py, lines 116-133): the
number of distinct `class_year` values among this challenge's completions
with `first_completion_for_class=True`. -/
def completed_classes_count (s : State) (c : Challenge) : Nat :=
  (((s.completions.filter
      (fun r => r.challenge == c.cid && r.first_completion_for_class)).map
      (fun r => r.class_year)).dedup).length

/-- `Challenge.get_points_for_class` (models.py, lines 135-143).  The
`class_year` argument is accepted and ignored, exactly as in the source. -/
def get_points_for_class (s : State) (c : Challenge) (class_year : Option String) : Int :=
  if !(is_decreasing c) then c.points
  else
    let classes_completed := completed_classes_count s c
    let decay_factor : ℚ := (100 - (c.decay_percentage : ℚ)) / 100
    let current_points : ℚ := (c.points : ℚ) * decay_factor ^ classes_completed
    max 1 (pyRound current_points)

/-- `Challenge.get_current_points` (models.py, lines 145-147). -/
def get_current_points (s : State) (c : Challenge) : Int :=
  get_points_for_class s c none

/-- `Challenge.is_available_for_class` (models.py, lines 149-184). -/
def is_available_for_class (s : State) (c : Challenge) (class_year : String) : Bool :=
  if !(is_unlocking c) then true
  else
    match find_class s class_year with
    | none => false
    | some class_obj =>
      let required_challenge_ids := c.required_challenges
      let completed_challenge_ids := class_obj.challenges_completed
      let completed_required_count := (required_challenge_ids ∩ completed_challenge_ids).card
      let needed_count :=
        if c.required_challenges_count = 0 ∨
            c.required_challenges_count ≥ required_challenge_ids.card then
          required_challenge_ids.card
        else
          c.required_challenges_count
      decide (completed_required_count ≥ needed_count)

/-- Python `str.lower` on one character, modelled for the ASCII range. -/
def py_lower_char (c : Char) : Char :=
  if 'A' ≤ c ∧ c ≤ 'Z' then Char.ofNat (c.toNat + 32) else c

/-- Whitespace as stripped by Python `str.strip`. -/
def py_isspace (c : Char) : Bool :=
  c == ' ' || c == '\t' || c == '\n' || c == '\r' || c == '\x0b' || c == '\x0c'

/-- Python `str.strip`: drop leading and trailing whitespace. -/
def py_strip (cs : List Char) : List Char :=
  (((cs.dropWhile py_isspace).reverse.dropWhile py_isspace)).reverse

/-- The flag comparison of `validate_flag` (views.py, line 239):
`flag.strip().lower() == challenge.flag.strip().lower()`, modelled on the
character lists of the two strings. -/
def flagMatches (submitted canonical : String) : Bool :=
  (py_strip submitted.data).map py_lower_char ==
    (py_strip canonical.data).map py_lower_char

/-- `Class.get_points` (models.py, lines 208-217): the cohort's derived
total, `Sum("points_earned")` over its completions. -/
def class_get_points (completions : List Completion) (year : String) : Int :=
  ((completions.filter (fun r => r.class_year == year)).map
    (fun r => r.points_earned)).sum

/-- A fresh auto-increment primary key for the submissions table. -/
def fresh_submission_id (s : State) : Nat :=
  (s.submissions.map (fun x => x.sid)).foldr Nat.max 0 + 1

/-- A fresh auto-increment primary key for the completions table. -/
def fresh_completion_id (s : State) : Nat :=
  (s.completions.map (fun x => x.cid)).foldr Nat.max 0 + 1

/-- `FlagSubmission.objects.create(...)`. -/
def add_submission (s : State) (x : Submission) : State :=
  { s with submissions := s.submissions ++ [x] }

/-- `ChallengeCompletion.objects.create(...)`. -/
def add_completion (s : State) (x : Completion) : State :=
  { s with completions := s.completions ++ [x] }

/-- `submission.points_awarded = p; submission.save()`. -/
def set_submission_points (s : State) (sid : Nat) (p : Int) : State :=
  { s with submissions := s.submissions.map (fun x =>
      if x.sid == sid then { x with points_awarded := p } else x) }

/-- Save a modified user row (e.g. a `challenges_done` update). -/
def update_user (s : State) (uid : Nat) (f : UserObj → UserObj) : State :=
  { s with users := s.users.map (fun u => if u.uid == uid then f u else u) }

/-- Save a modified class row (e.g. a `challenges_completed` update). -/
def update_class (s : State) (year : String) (f : ClassObj → ClassObj) : State :=
  { s with classes := s.classes.map (fun c => if c.year == year then f c else c) }

/-- Save a modified challenge row (e.g. a `locked` update). -/
def update_challenge (s : State) (cid : Nat) (f : Challenge → Challenge) : State :=
  { s with challenges := s.challenges.map (fun c => if c.cid == cid then f c else c) }

/-- The JSON response of `validate_flag`: the `result` string and the
`points` value (0 when the key is absent in the source's response). -/
structure FlagResponse where
  result : String
  points : Int
deriving DecidableEq

/-- `validate_flag` (views.py, lines 206-383), from the flag comparison on
line 239 onward.  The surrounding request plumbing — AJAX/participant
checks, hunt-activity and rate limiting (lines 207-222), the challenge
release gate (lines 229-236), and the `decreasing_challenges_update`
display table (lines 364-375) — is outside the modelled engine.  The
logging helpers (`log_flag_submission`, `log_challenge_completion`,
logging/utils.py) are modelled as succeeding row inserts; activity-log
rows and the Discord notification carry no engine state and are omitted. -/
def validate_flag (s : State) (uid chid : Nat) (flag : String) (now : Nat) :
    State × FlagResponse :=
  match find_user s uid with
  | none => (s, ⟨"error", 0⟩)
  | some user =>
  match find_challenge s chid with
  | none => (s, ⟨"error", 0⟩)
  | some challenge =>
    let is_correct := flagMatches flag challenge.flag
    let sid := fresh_submission_id s
    let s1 := add_submission s ⟨sid, uid, chid, is_correct, 0, false, none, none⟩
    if is_correct then
      if !challenge.locked &&
          (!(is_unlocking challenge) ||
            is_available_for_class s challenge user.graduation_year) then
        if chid ∈ user.challenges_done then
          -- user already completed this challenge, no points
          (set_submission_points s1 sid 0, ⟨"success", 0⟩)
        else
          match find_class s user.graduation_year with
          | none => (s1, ⟨"error", 0⟩)
          | some _class_obj =>
            let class_already_has_completion := s.completions.any
              (fun r => r.challenge == chid && r.class_year == user.graduation_year)
            let first_for_class := !class_already_has_completion
            let base_points :=
              if is_decreasing challenge then get_current_points s challenge
              else challenge.points
            let points_awarded := if first_for_class then base_points else 0
            let s2 := set_submission_points s1 sid points_awarded
            let s3 := update_user s2 uid
              (fun u => { u with challenges_done := insert chid u.challenges_done })
            let s4 := update_class s3 user.graduation_year
              (fun c => { c with
                challenges_completed := insert chid c.challenges_completed })
            let s5 :=
              if is_exclusive challenge then
                update_challenge s4 chid (fun c => { c with locked := true })
              else s4
            let s6 := add_completion s5
              ⟨fresh_completion_id s5, uid, chid, user.graduation_year, now,
                points_awarded, first_for_class⟩
            (s6, ⟨"success", points_awarded⟩)
      else
        -- challenge is locked or prerequisites not met, no points
        (set_submission_points s1 sid 0, ⟨"success", 0⟩)
    else
      (s1, ⟨"failure", 0⟩)

/-- One iteration of the loop of
`ChallengeCompletionAdmin.invalidate_completions`
(src/hunt/apps/logging/admin.py, lines 270-320), applied to the completion
row with primary key `target`.  The activity-log entry written by
`log_admin_action` carries no engine state and is omitted. -/
def invalidate_completion (s : State) (target : Nat) : State :=
  match s.completions.find? (fun r => r.cid == target) with
  | none => s
  | some completion =>
    -- remove from the user's completed challenges
    let s1 := update_user s completion.user
      (fun u => { u with challenges_done := u.challenges_done.erase completion.challenge })
    -- remove from class completed challenges if no other completions exist
    let other_completions := s.completions.any (fun r =>
      r.challenge == completion.challenge &&
        r.class_year == completion.class_year && r.cid != completion.cid)
    let s2 : State :=
      if !other_completions then
        let s2a := update_class s1 completion.class_year
          (fun c => { c with
            challenges_completed := c.challenges_completed.erase completion.challenge })
        match find_challenge s completion.challenge with
        | some ch =>
          if is_exclusive ch then
            update_challenge s2a completion.challenge (fun c => { c with locked := false })
          else s2a
        | none => s2a
      else s1
    -- zero out points on corresponding flag submissions
    let s3 : State := { s2 with submissions := s2.submissions.map (fun x =>
        if x.user == completion.user && x.challenge == completion.challenge &&
            x.is_correct then
          { x with points_awarded := 0 }
        else x) }
    -- delete the completion
    { s3 with completions := s3.completions.filter (fun r => r.cid != target) }

/-- One iteration of the loop of `FlagSubmissionAdmin.invalidate_submissions`
(logging/admin.py, lines 141-217), applied to the submission row with
primary key `target`, invalidated by `actor` at time `now`. -/
def invalidate_submission (s : State) (target : Nat) (actor : Nat) (now : Nat) : State :=
  match s.submissions.find? (fun x => x.sid == target) with
  | none => s
  | some submission =>
    if submission.is_correct && submission.points_awarded > 0 then
      match find_user s submission.user with
      | none => s
      | some user =>
        let class_year := user.graduation_year
        -- remove from the user's completed challenges
        let s1 := update_user s submission.user
          (fun u => { u with
            challenges_done := u.challenges_done.erase submission.challenge })
        -- find and delete the corresponding ChallengeCompletion
        let s2 : State := { s1 with completions := s1.completions.filter (fun r =>
          !(r.user == submission.user && r.challenge == submission.challenge)) }
        -- re-check whether the class still has a completion for this challenge
        let other_class_completions := s2.completions.any (fun r =>
          r.challenge == submission.challenge && r.class_year == class_year)
        let s3 : State :=
          if !other_class_completions then
            let s3a := update_class s2 class_year (fun c =>
              { c with
                challenges_completed := c.challenges_completed.erase submission.challenge })
            match find_challenge s submission.challenge with
            | some ch =>
              if is_exclusive ch && ch.locked then
                update_challenge s3a submission.challenge
                  (fun c => { c with locked := false })
              else s3a
            | none => s3a
          else s2
        -- mark the submission as invalidated instead of deleting it
        { s3 with submissions := s3.submissions.map (fun x =>
            if x.sid == target then
              { x with
                points_awarded := 0
                invalidated := true
                invalidated_by := some actor
                invalidated_at := some now }
            else x) }
    else s

/-- The cycle test `would_create_cycle` nested inside
`ChallengeAdminForm.clean` (src/hunt/apps/main/admin.py, lines 77-89).
The Python recursion carries no bound and would overflow the stack on a
pre-existing prerequisite cycle; `fuel` models the recursion budget, with
`fuel = 0` standing for that overflow.  Theorems quantify over sufficient
fuel. -/
def would_create_cycle (fuel : Nat) (s : State) (challenge : Nat)
    (required_challenges_list : List Nat) : Bool :=
  match fuel with
  | 0 => false
  | fuel + 1 =>
    required_challenges_list.any (fun req =>
      req == challenge ||
      (match find_challenge s req with
       | none => false
       | some req_challenge =>
         is_unlocking req_challenge &&
           (challenge ∈ req_challenge.required_challenges ||
             would_create_cycle fuel s challenge
               (req_challenge.required_challenges.sort (· ≤ ·)))))

/-- An administrator edit of a challenge's type, prerequisite set and
required count, submitted through `ChallengeAdminForm.clean` (admin.py,
lines 67-118) and saved only when `clean` raises no `ValidationError`.
The timed-release validation (lines 109-116) concerns fields outside the
modelled engine.  Returns the resulting store and whether the edit was
accepted. -/
def apply_prerequisite_edit (fuel : Nat) (s : State) (challenge : Nat)
    (new_type : String) (new_required : Finset Nat) (new_count : Nat) :
    State × Bool :=
  let cycle_error :=
    new_type == "unlocking" && new_required.card != 0 &&
      would_create_cycle fuel s challenge (new_required.sort (· ≤ ·))
  let count_error :=
    new_type == "unlocking" && new_count > 0 &&
      (new_required.card == 0 || new_count > new_required.card)
  if cycle_error || count_error then (s, false)
  else
    (update_challenge s challenge (fun c =>
      { c with
        challenge_type := new_type
        required_challenges := new_required
        required_challenges_count := new_count }), true)

/-- The "requires" relation of the specification's data model (spec
sections 3 and 4.3): a prerequisite reference is carried only by an
unlocking-type challenge, so challenge `a` requires challenge `b` iff `a`
is of unlocking type and `b` is among its stored prerequisites. -/
def SpecRequires (s : State) (a b : Nat) : Prop :=
  ∃ ch, find_challenge s a = some ch ∧ is_unlocking ch = true ∧
    b ∈ ch.required_challenges

/-- The effective unlock threshold as worded in the specification
(section 4.3): `k` when `M = 0` or `M ≥ k`, else `M`. -/
def spec_effective_threshold (M k : Nat) : Nat :=
  if M = 0 ∨ M ≥ k then k else M

/-- The decay formula as worded in the specification (section 4.2):
`max(1, round(base × ((100 − D) / 100) ^ n))`. -/
def spec_decay_points (base D : Int) (n : Nat) : Int :=
  max 1 (pyRound ((base : ℚ) * (((100 : ℚ) - D) / 100) ^ n))

/-- The completions of cohort `y` for challenge `ch` that carry
`first_completion_for_class = true`, counted (claim C5's "exactly one ...
has first_for_cohort = true"). -/
def first_count (l : List Completion) (ch : Nat) (y : String) : Nat :=
  l.countP (fun r => r.challenge == ch && r.class_year == y &&
    r.first_completion_for_class)

/-- Claim C5's invariant, first half: every (challenge, cohort) pair with
at least one completion has exactly one `first_completion_for_class`
record.  Quantifying over the rows themselves makes the statement
decidable on concrete stores. -/
def FirstExactlyOne (l : List Completion) : Prop :=
  ∀ r ∈ l, first_count l r.challenge r.class_year = 1

/-- The weaker half that survives invalidation: at most one
`first_completion_for_class` record per (challenge, cohort) pair. -/
def FirstAtMostOne (l : List Completion) : Prop :=
  ∀ r ∈ l, first_count l r.challenge r.class_year ≤ 1

/-- Claim C5's invariant, second half: a `first_completion_for_class`
record is strictly earliest among its cohort's completions of the
challenge. -/
def FirstIsEarliest (l : List Completion) : Prop :=
  ∀ r ∈ l, r.first_completion_for_class = true →
    ∀ r' ∈ l, r'.challenge = r.challenge → r'.class_year = r.class_year →
      r'.first_completion_for_class = false → r.timestamp < r'.timestamp

/-- The invariant exactly as claim C5 states it. -/
def FirstForCohortInvariant (l : List Completion) : Prop :=
  FirstExactlyOne l ∧ FirstIsEarliest l

/-- The invariant that invalidation actually preserves. -/
def WeakFirstForCohortInvariant (l : List Completion) : Prop :=
  FirstAtMostOne l ∧ FirstIsEarliest l

instance (l : List Completion) : Decidable (FirstExactlyOne l) := by
  unfold FirstExactlyOne; infer_instance

instance (l : List Completion) : Decidable (FirstAtMostOne l) := by
  unfold FirstAtMostOne; infer_instance

instance (l : List Completion) : Decidable (FirstIsEarliest l) := by
  unfold FirstIsEarliest; infer_instance

instance (l : List Completion) : Decidable (FirstForCohortInvariant l) := by
  unfold FirstForCohortInvariant; infer_instance

instance (l : List Completion) : Decidable (WeakFirstForCohortInvariant l) := by
  unfold WeakFirstForCohortInvariant; infer_instance

/-! ### Helper lemmas -/

@[simp]
lemma add_submission_completions (s : State) (x : Submission) :
    (add_submission s x).completions = s.completions := rfl

@[simp]
lemma add_submission_classes (s : State) (x : Submission) :
    (add_submission s x).classes = s.classes := rfl

@[simp]
lemma add_submission_users (s : State) (x : Submission) :
    (add_submission s x).users = s.users := rfl

@[simp]
lemma add_submission_challenges (s : State) (x : Submission) :
    (add_submission s x).challenges = s.challenges := rfl

@[simp]
lemma add_submission_submissions (s : State) (x : Submission) :
    (add_submission s x).submissions = s.submissions ++ [x] := rfl

@[simp]
lemma set_submission_points_completions (s : State) (sid : Nat) (p : Int) :
    (set_submission_points s sid p).completions = s.completions := rfl

@[simp]
lemma set_submission_points_classes (s : State) (sid : Nat) (p : Int) :
    (set_submission_points s sid p).classes = s.classes := rfl

@[simp]
lemma set_submission_points_users (s : State) (sid : Nat) (p : Int) :
    (set_submission_points s sid p).users = s.users := rfl

@[simp]
lemma set_submission_points_challenges (s : State) (sid : Nat) (p : Int) :
    (set_submission_points s sid p).challenges = s.challenges := rfl

@[simp]
lemma update_user_completions (s : State) (uid : Nat) (f : UserObj → UserObj) :
    (update_user s uid f).completions = s.completions := rfl

@[simp]
lemma update_user_classes (s : State) (uid : Nat) (f : UserObj → UserObj) :
    (update_user s uid f).classes = s.classes := rfl

@[simp]
lemma update_user_challenges (s : State) (uid : Nat) (f : UserObj → UserObj) :
    (update_user s uid f).challenges = s.challenges := rfl

@[simp]
lemma update_user_submissions (s : State) (uid : Nat) (f : UserObj → UserObj) :
    (update_user s uid f).submissions = s.submissions := rfl

@[simp]
lemma update_class_completions (s : State) (y : String) (f : ClassObj → ClassObj) :
    (update_class s y f).completions = s.completions := rfl

@[simp]
lemma update_class_users (s : State) (y : String) (f : ClassObj → ClassObj) :
    (update_class s y f).users = s.users := rfl

@[simp]
lemma update_class_challenges (s : State) (y : String) (f : ClassObj → ClassObj) :
    (update_class s y f).challenges = s.challenges := rfl

@[simp]
lemma update_class_submissions (s : State) (y : String) (f : ClassObj → ClassObj) :
    (update_class s y f).submissions = s.submissions := rfl

@[simp]
lemma update_challenge_completions (s : State) (cid : Nat) (f : Challenge → Challenge) :
    (update_challenge s cid f).completions = s.completions := rfl

@[simp]
lemma update_challenge_classes (s : State) (cid : Nat) (f : Challenge → Challenge) :
    (update_challenge s cid f).classes = s.classes := rfl

@[simp]
lemma update_challenge_users (s : State) (cid : Nat) (f : Challenge → Challenge) :
    (update_challenge s cid f).users = s.users := rfl

@[simp]
lemma update_challenge_submissions (s : State) (cid : Nat) (f : Challenge → Challenge) :
    (update_challenge s cid f).submissions = s.submissions := rfl

@[simp]
lemma add_completion_classes (s : State) (x : Completion) :
    (add_completion s x).classes = s.classes := rfl

@[simp]
lemma add_completion_users (s : State) (x : Completion) :
    (add_completion s x).users = s.users := rfl

@[simp]
lemma add_completion_challenges (s : State) (x : Completion) :
    (add_completion s x).challenges = s.challenges := rfl

@[simp]
lemma add_completion_submissions (s : State) (x : Completion) :
    (add_completion s x).submissions = s.submissions := rfl

@[simp]
lemma add_completion_completions (s : State) (x : Completion) :
    (add_completion s x).completions = s.completions ++ [x] := rfl

lemma pyRound_le (q : ℚ) : pyRound q ≤ ⌊q⌋ + 1 := by
  unfold pyRound; split_ifs <;> omega

lemma le_pyRound (q : ℚ) : ⌊q⌋ ≤ pyRound q := by
  unfold pyRound; split_ifs <;> omega

lemma pyRound_mono {a b : ℚ} (h : a ≤ b) : pyRound a ≤ pyRound b := by
  have hf : ⌊a⌋ ≤ ⌊b⌋ := Int.floor_mono h
  rcases eq_or_lt_of_le hf with heq | hlt
  · unfold pyRound
    rw [← heq]
    have hab : a - ⌊a⌋ ≤ b - ⌊a⌋ := by linarith
    split_ifs <;> first | omega | linarith
  · calc pyRound a ≤ ⌊a⌋ + 1 := pyRound_le a
      _ ≤ ⌊b⌋ := by omega
      _ ≤ pyRound b := le_pyRound b

lemma spec_decay_points_anti {D : Int} (base : Int) (n : Nat)
    (hD1 : 1 ≤ D) (hD2 : D ≤ 99) :
    spec_decay_points base D (n + 1) ≤ spec_decay_points base D n := by
  unfold spec_decay_points
  have hr0 : (0 : ℚ) ≤ ((100 : ℚ) - D) / 100 := by
    apply div_nonneg _ (by norm_num)
    have : (D : ℚ) ≤ 99 := by exact_mod_cast hD2
    linarith
  have hr1 : ((100 : ℚ) - D) / 100 ≤ 1 := by
    rw [div_le_one (by norm_num)]
    have : (1 : ℚ) ≤ (D : ℚ) := by exact_mod_cast hD1
    linarith
  rcases le_or_lt (base : ℚ) 0 with hb | hb
  · have h1 : (base : ℚ) * (((100 : ℚ) - D) / 100) ^ (n + 1) ≤ 0 :=
      mul_nonpos_of_nonpos_of_nonneg hb (pow_nonneg hr0 _)
    have h2 : pyRound ((base : ℚ) * (((100 : ℚ) - D) / 100) ^ (n + 1)) ≤ 1 := by
      have hfl := Int.floor_nonpos h1
      have := pyRound_le ((base : ℚ) * (((100 : ℚ) - D) / 100) ^ (n + 1))
      omega
    exact max_le (le_max_left _ _) (le_trans h2 (le_max_left _ _))
  · have hpow : (((100 : ℚ) - D) / 100) ^ (n + 1) ≤ (((100 : ℚ) - D) / 100) ^ n :=
      pow_le_pow_of_le_one hr0 hr1 (Nat.le_succ n)
    have hmul := mul_le_mul_of_nonneg_left hpow (le_of_lt hb)
    exact max_le_max le_rfl (pyRound_mono hmul)

/-- The branch on `challenge.is_decreasing` in views.py lines 284-287 always
computes the scoring engine's current value. -/
lemma base_points_eq (s : State) (c : Challenge) :
    (if is_decreasing c then get_current_points s c else c.points) =
      get_current_points s c := by
  by_cases h : is_decreasing c = true
  · simp [h]
  · simp only [Bool.not_eq_true] at h
    simp [h, get_current_points, get_points_for_class]

lemma find?_map_update {α : Type} (l : List α) (p : α → Bool) (f : α → α)
    (hf : ∀ a, p a = true → p (f a) = true) :
    (l.map (fun a => if p a then f a else a)).find? p = (l.find? p).map f := by
  induction l with
  | nil => rfl
  | cons hd tl ih =>
    by_cases h : p hd = true
    · simp [h, hf hd h]
    · simp only [Bool.not_eq_true] at h
      simp [h, ih]

lemma find_user_update_self (s : State) (uid : Nat) (f : UserObj → UserObj)
    (u : UserObj) (hf : ∀ v : UserObj, (f v).uid = v.uid)
    (h : find_user s uid = some u) :
    find_user (update_user s uid f) uid = some (f u) := by
  unfold find_user update_user at *
  have := find?_map_update s.users (fun v => v.uid == uid) f
    (fun a ha => by rw [beq_iff_eq] at ha ⊢; rw [hf, ha])
  simp only [this, h]
  rfl

lemma find_class_update_self (s : State) (y : String) (f : ClassObj → ClassObj)
    (cls : ClassObj) (hf : ∀ v : ClassObj, (f v).year = v.year)
    (h : find_class s y = some cls) :
    find_class (update_class s y f) y = some (f cls) := by
  unfold find_class update_class at *
  have := find?_map_update s.classes (fun v => v.year == y) f
    (fun a ha => by rw [beq_iff_eq] at ha ⊢; rw [hf, ha])
  simp only [this, h]
  rfl

lemma find_challenge_update_self (s : State) (cid : Nat)
    (f : Challenge → Challenge) (c : Challenge)
    (hf : ∀ v : Challenge, (f v).cid = v.cid)
    (h : find_challenge s cid = some c) :
    find_challenge (update_challenge s cid f) cid = some (f c) := by
  unfold find_challenge update_challenge at *
  have := find?_map_update s.challenges (fun v => v.cid == cid) f
    (fun a ha => by rw [beq_iff_eq] at ha ⊢; rw [hf, ha])
  simp only [this, h]
  rfl

@[simp]
lemma ite_state_completions (P : Prop) [Decidable P] (s t : State) :
    (if P then s else t).completions = if P then s.completions else t.completions := by
  split <;> rfl

@[simp]
lemma ite_state_users (P : Prop) [Decidable P] (s t : State) :
    (if P then s else t).users = if P then s.users else t.users := by
  split <;> rfl

@[simp]
lemma ite_state_classes (P : Prop) [Decidable P] (s t : State) :
    (if P then s else t).classes = if P then s.classes else t.classes := by
  split <;> rfl

@[simp]
lemma ite_state_challenges (P : Prop) [Decidable P] (s t : State) :
    (if P then s else t).challenges = if P then s.challenges else t.challenges := by
  split <;> rfl

@[simp]
lemma ite_state_submissions (P : Prop) [Decidable P] (s t : State) :
    (if P then s else t).submissions = if P then s.submissions else t.submissions := by
  split <;> rfl

/-- views.py lines 343-351: a correct submission by a user who already
completed the challenge only logs a zero-point submission row. -/
lemma validate_flag_already_done (s : State) (uid chid now : Nat) (flag : String)
    (u : UserObj) (c : Challenge)
    (hu : find_user s uid = some u) (hc : find_challenge s chid = some c)
    (hflag : flagMatches flag c.flag = true) (hdone : chid ∈ u.challenges_done) :
    validate_flag s uid chid flag now =
      (set_submission_points
        (add_submission s ⟨fresh_submission_id s, uid, chid, true, 0, false, none, none⟩)
        (fresh_submission_id s) 0, ⟨"success", 0⟩) := by
  unfold validate_flag
  simp only [hu, hc, hflag]
  split_ifs with hgate <;> simp [hdone]

/-! ### Claim theorems -/

/-- C10: `Challenge.get_points_for_class` ignores its `class_year` argument:
any two argument values give the same result, which is exactly
`Challenge.get_current_points()`. -/
theorem c10_points_ignore_class_year (s : State) (c : Challenge)
    (y1 y2 : Option String) :
    get_points_for_class s c y1 = get_points_for_class s c y2 ∧
    get_points_for_class s c y1 = get_current_points s c :=
  ⟨rfl, rfl⟩

/-- C3: for a decreasing challenge with decay percentage in [1, 99] the
current point value is `max(1, round(base × ((100 − D)/100) ^ n))` with `n`
the number of distinct cohorts holding a `first_for_cohort` completion;
non-decreasing challenges are worth their base value unchanged; the decayed
value is non-increasing in `n`; and for base 100, D = 20 the successive
values are 100, 80, 64. -/
theorem c3_decay_formula (s : State) (c : Challenge) (y : Option String)
    (hdec : c.challenge_type = "decreasing")
    (hD1 : 1 ≤ c.decay_percentage) (hD2 : c.decay_percentage ≤ 99) :
    get_points_for_class s c y =
      spec_decay_points c.points c.decay_percentage (completed_classes_count s c) ∧
    (∀ c' : Challenge, is_decreasing c' = false →
      get_points_for_class s c' y = c'.points) ∧
    (∀ n : Nat, spec_decay_points c.points c.decay_percentage (n + 1) ≤
      spec_decay_points c.points c.decay_percentage n) ∧
    (spec_decay_points 100 20 0 = 100 ∧ spec_decay_points 100 20 1 = 80 ∧
      spec_decay_points 100 20 2 = 64) :=
  by
  refine ⟨?_, ?_, ?_, ?_, ?_, ?_⟩
  · simp [get_points_for_class, is_decreasing, hdec, spec_decay_points]
  · intro c' h
    simp [get_points_for_class, h]
  · intro n
    exact spec_decay_points_anti c.points n hD1 hD2
  · norm_num [spec_decay_points, pyRound]
  · norm_num [spec_decay_points, pyRound]
  · norm_num [spec_decay_points, pyRound]

/-- C3 witness: the theorem applied to a concrete decreasing challenge. -/
theorem c3_decay_formula_witness :
    (Challenge.mk 7 "x" 100 "decreasing" false 20 false ∅ 0).challenge_type =
        "decreasing" ∧
    (1 : Int) ≤ 20 ∧ (20 : Int) ≤ 99 ∧
    (get_points_for_class ⟨[], [], [], [], []⟩
        (Challenge.mk 7 "x" 100 "decreasing" false 20 false ∅ 0) none =
      spec_decay_points 100 20 (completed_classes_count ⟨[], [], [], [], []⟩
        (Challenge.mk 7 "x" 100 "decreasing" false 20 false ∅ 0)) ∧
      (∀ c' : Challenge, is_decreasing c' = false →
        get_points_for_class ⟨[], [], [], [], []⟩ c' none = c'.points) ∧
      (∀ n : Nat, spec_decay_points 100 20 (n + 1) ≤ spec_decay_points 100 20 n) ∧
      (spec_decay_points 100 20 0 = 100 ∧ spec_decay_points 100 20 1 = 80 ∧
        spec_decay_points 100 20 2 = 64)) :=
  ⟨rfl, by norm_num, by norm_num,
    c3_decay_formula ⟨[], [], [], [], []⟩
      (Challenge.mk 7 "x" 100 "decreasing" false 20 false ∅ 0) none rfl
      (by norm_num) (by norm_num)⟩

/-- C4: a non-unlocking challenge is always available; an unlocking
challenge is available to an existing cohort exactly when the number of its
prerequisites inside the cohort's completed set reaches the effective
threshold (`k` when `M = 0` or `M ≥ k`, else `M`). -/
theorem c4_unlock_gating (s : State) (c : Challenge) (y : String)
    (cls : ClassObj) (hcls : find_class s y = some cls) :
    (is_unlocking c = false → is_available_for_class s c y = true) ∧
    (is_unlocking c = true →
      (is_available_for_class s c y = true ↔
        spec_effective_threshold c.required_challenges_count
            c.required_challenges.card ≤
          (c.required_challenges ∩ cls.challenges_completed).card)) :=
  by
  constructor
  · intro h
    simp [is_available_for_class, h]
  · intro h
    simp [is_available_for_class, h, hcls, spec_effective_threshold]

/-- C4 witness: the 2-of-3 example of the specification, for a cohort that
completed two of the three prerequisites. -/
theorem c4_unlock_gating_witness :
    find_class ⟨[], [⟨"2026", {1, 2}⟩], [], [], []⟩ "2026" =
        some ⟨"2026", {1, 2}⟩ ∧
    ((is_unlocking (Challenge.mk 9 "x" 10 "unlocking" false 10 false {1, 2, 3} 2) =
        false →
      is_available_for_class ⟨[], [⟨"2026", {1, 2}⟩], [], [], []⟩
        (Challenge.mk 9 "x" 10 "unlocking" false 10 false {1, 2, 3} 2) "2026" = true) ∧
    (is_unlocking (Challenge.mk 9 "x" 10 "unlocking" false 10 false {1, 2, 3} 2) =
        true →
      (is_available_for_class ⟨[], [⟨"2026", {1, 2}⟩], [], [], []⟩
          (Challenge.mk 9 "x" 10 "unlocking" false 10 false {1, 2, 3} 2) "2026" =
          true ↔
        spec_effective_threshold 2 (Finset.card {1, 2, 3}) ≤
          Finset.card ({1, 2, 3} ∩ {1, 2})))) :=
  ⟨by decide,
    c4_unlock_gating ⟨[], [⟨"2026", {1, 2}⟩], [], [], []⟩
      (Challenge.mk 9 "x" 10 "unlocking" false 10 false {1, 2, 3} 2) "2026"
      ⟨"2026", {1, 2}⟩ (by decide)⟩

/-- A concrete store used by several witnesses: user 1 of cohort "2026"
already completed challenge 10 and was awarded 50 points for it. -/
def doneState : State :=
  ⟨[⟨10, "f", 50, "normal", false, 10, false, ∅, 0⟩], [⟨"2026", {10}⟩],
    [⟨1, "2026", {10}⟩], [⟨1, 1, 10, "2026", 3, 50, true⟩],
    [⟨1, 1, 10, true, 50, false, none, none⟩]⟩

/-- C1: a correct re-submission by a participant already holding a
CompletionRecord for the challenge creates no new CompletionRecord, reports
zero points, and leaves every cohort's derived point total unchanged. -/
theorem c1_resubmission_idempotent (s : State) (uid chid now : Nat)
    (flag : String) (u : UserObj) (c : Challenge)
    (hu : find_user s uid = some u) (hc : find_challenge s chid = some c)
    (hflag : flagMatches flag c.flag = true)
    (hdone : chid ∈ u.challenges_done)
    (hrec : ∃ r ∈ s.completions, r.user = uid ∧ r.challenge = chid) :
    (validate_flag s uid chid flag now).1.completions = s.completions ∧
    (validate_flag s uid chid flag now).2.points = 0 ∧
    ∀ y, class_get_points (validate_flag s uid chid flag now).1.completions y =
      class_get_points s.completions y := by
  have key := validate_flag_already_done s uid chid now flag u c hu hc hflag hdone
  rw [key]
  refine ⟨by simp, rfl, fun y => by simp⟩

/-- C1 witness: the theorem applied to `doneState`. -/
theorem c1_resubmission_idempotent_witness :
    find_user doneState 1 = some ⟨1, "2026", {10}⟩ ∧
    find_challenge doneState 10 = some ⟨10, "f", 50, "normal", false, 10, false, ∅, 0⟩ ∧
    flagMatches "f" (Challenge.mk 10 "f" 50 "normal" false 10 false ∅ 0).flag = true ∧
    10 ∈ (UserObj.mk 1 "2026" {10}).challenges_done ∧
    (∃ r ∈ doneState.completions, r.user = 1 ∧ r.challenge = 10) ∧
    ((validate_flag doneState 1 10 "f" 9).1.completions = doneState.completions ∧
      (validate_flag doneState 1 10 "f" 9).2.points = 0 ∧
      ∀ y, class_get_points (validate_flag doneState 1 10 "f" 9).1.completions y =
        class_get_points doneState.completions y) :=
  ⟨by decide, by decide, by decide, by decide, by decide,
    c1_resubmission_idempotent doneState 1 10 9 "f" ⟨1, "2026", {10}⟩
      ⟨10, "f", 50, "normal", false, 10, false, ∅, 0⟩ (by decide) (by decide)
      (by decide) (by decide) (by decide)⟩

/-- C8 (amended): the duplicate-completion path of `validate_flag` creates
no CompletionRecord and leaves users, classes, challenges and completions
unchanged, but it answers result "success" with 0 points — not the
previously awarded points — and appends one submission-log row. -/
theorem c8_duplicate_completion_path (s : State) (uid chid now : Nat)
    (flag : String) (u : UserObj) (c : Challenge)
    (hu : find_user s uid = some u) (hc : find_challenge s chid = some c)
    (hflag : flagMatches flag c.flag = true)
    (hdone : chid ∈ u.challenges_done)
    (hrec : ∃ r ∈ s.completions, r.user = uid ∧ r.challenge = chid) :
    (validate_flag s uid chid flag now).2 = ⟨"success", 0⟩ ∧
    (validate_flag s uid chid flag now).1.completions = s.completions ∧
    (validate_flag s uid chid flag now).1.users = s.users ∧
    (validate_flag s uid chid flag now).1.classes = s.classes ∧
    (validate_flag s uid chid flag now).1.challenges = s.challenges ∧
    (validate_flag s uid chid flag now).1.submissions.length =
      s.submissions.length + 1 := by
  have key := validate_flag_already_done s uid chid now flag u c hu hc hflag hdone
  rw [key]
  refine ⟨rfl, by simp, by simp, by simp, by simp, ?_⟩
  simp [set_submission_points]

/-- C8 counterexample: in `doneState` the participant's prior award was 50
points, but the second correct submission reports 0, not the previously
awarded points, so the call does not "return the previously awarded
points". -/
theorem c8_duplicate_completion_counterexample :
    (∃ r ∈ doneState.completions,
      r.user = 1 ∧ r.challenge = 10 ∧ r.points_earned = 50) ∧
    (validate_flag doneState 1 10 "f" 9).2.points = 0 ∧
    ¬((validate_flag doneState 1 10 "f" 9).2.points = 50) := by
  decide

/-- C8 witness: the amended theorem applied to `doneState`. -/
theorem c8_duplicate_completion_path_witness :
    find_user doneState 1 = some ⟨1, "2026", {10}⟩ ∧
    find_challenge doneState 10 = some ⟨10, "f", 50, "normal", false, 10, false, ∅, 0⟩ ∧
    flagMatches "f" (Challenge.mk 10 "f" 50 "normal" false 10 false ∅ 0).flag = true ∧
    10 ∈ (UserObj.mk 1 "2026" {10}).challenges_done ∧
    (∃ r ∈ doneState.completions, r.user = 1 ∧ r.challenge = 10) ∧
    ((validate_flag doneState 1 10 "f" 9).2 = ⟨"success", 0⟩ ∧
      (validate_flag doneState 1 10 "f" 9).1.completions = doneState.completions ∧
      (validate_flag doneState 1 10 "f" 9).1.users = doneState.users ∧
      (validate_flag doneState 1 10 "f" 9).1.classes = doneState.classes ∧
      (validate_flag doneState 1 10 "f" 9).1.challenges = doneState.challenges ∧
      (validate_flag doneState 1 10 "f" 9).1.submissions.length =
        doneState.submissions.length + 1) :=
  ⟨by decide, by decide, by decide, by decide, by decide,
    c8_duplicate_completion_path doneState 1 10 9 "f" ⟨1, "2026", {10}⟩
      ⟨10, "f", 50, "normal", false, 10, false, ∅, 0⟩ (by decide) (by decide)
      (by decide) (by decide) (by decide)⟩

lemma find_user_eq_of_users_eq {s1 s2 : State} (h : s1.users = s2.users)
    (uid : Nat) : find_user s1 uid = find_user s2 uid := by
  unfold find_user; rw [h]

/-- C2: an accepted correct submission awards exactly
`get_current_points`, read on the store before the insert, when the cohort
had no completion of the challenge yet, and 0 points otherwise; in the
zero-point case a CompletionRecord is still created and the participant is
marked personally completed. -/
theorem c2_award_amount (s : State) (uid chid now : Nat) (flag : String)
    (u : UserObj) (c : Challenge) (cls : ClassObj)
    (hu : find_user s uid = some u) (hc : find_challenge s chid = some c)
    (hcls : find_class s u.graduation_year = some cls)
    (hflag : flagMatches flag c.flag = true)
    (hgate : (!c.locked && (!(is_unlocking c) ||
      is_available_for_class s c u.graduation_year)) = true)
    (hnew : chid ∉ u.challenges_done) :
    ((∀ r ∈ s.completions,
        ¬(r.challenge = chid ∧ r.class_year = u.graduation_year)) →
      (validate_flag s uid chid flag now).2.points = get_current_points s c ∧
      ∃ r', (validate_flag s uid chid flag now).1.completions =
          s.completions ++ [r'] ∧
        r'.points_earned = get_current_points s c ∧
        r'.first_completion_for_class = true) ∧
    ((∃ r ∈ s.completions,
        r.challenge = chid ∧ r.class_year = u.graduation_year) →
      (validate_flag s uid chid flag now).2.points = 0 ∧
      (∃ r', (validate_flag s uid chid flag now).1.completions =
          s.completions ++ [r'] ∧
        r'.user = uid ∧ r'.challenge = chid ∧
        r'.class_year = u.graduation_year ∧ r'.points_earned = 0 ∧
        r'.first_completion_for_class = false) ∧
      ∃ u', find_user (validate_flag s uid chid flag now).1 uid = some u' ∧
        chid ∈ u'.challenges_done) := by
  constructor
  · intro hnone
    have hany : s.completions.any (fun r =>
        r.challenge == chid && r.class_year == u.graduation_year) = false := by
      rw [List.any_eq_false]
      intro r hr
      have := hnone r hr
      simp only [Bool.and_eq_true, beq_iff_eq]
      tauto
    unfold validate_flag
    simp only [hu, hc, hflag, hgate, hany]
    simp [hnew, hcls]
    intro h
    simp [get_current_points, get_points_for_class, h]
  · intro hsome
    have hany : s.completions.any (fun r =>
        r.challenge == chid && r.class_year == u.graduation_year) = true := by
      rw [List.any_eq_true]
      obtain ⟨r, hr, h1, h2⟩ := hsome
      exact ⟨r, hr, by simp [beq_iff_eq, h1, h2]⟩
    have hfu : find_user (validate_flag s uid chid flag now).1 uid =
        some { u with challenges_done := insert chid u.challenges_done } := by
      have husers : (validate_flag s uid chid flag now).1.users =
          (update_user s uid (fun v =>
            { v with challenges_done := insert chid v.challenges_done })).users := by
        unfold validate_flag
        simp only [hu, hc, hflag, hgate, hany]
        simp [hnew, hcls, update_user]
      rw [find_user_eq_of_users_eq husers]
      exact find_user_update_self s uid _ u (fun v => rfl) hu
    refine ⟨?_, ?_, ?_⟩
    · unfold validate_flag
      simp only [hu, hc, hflag, hgate, hany]
      simp [hnew, hcls]
    · unfold validate_flag
      simp only [hu, hc, hflag, hgate, hany]
      simp [hnew, hcls]
    · exact ⟨_, hfu, Finset.mem_insert_self _ _⟩

/-- A concrete store used by the C2 witness: user 2 of cohort "2027" has
not attempted challenge 10; cohort "2026" already completed it. -/
def freshState : State :=
  ⟨[⟨10, "f", 50, "normal", false, 10, false, ∅, 0⟩],
    [⟨"2026", {10}⟩, ⟨"2027", ∅⟩], [⟨2, "2027", ∅⟩],
    [⟨1, 1, 10, "2026", 3, 50, true⟩], []⟩

/-- C2 witness: the theorem applied to `freshState`. -/
theorem c2_award_amount_witness :
    find_user freshState 2 = some ⟨2, "2027", ∅⟩ ∧
    find_challenge freshState 10 =
      some ⟨10, "f", 50, "normal", false, 10, false, ∅, 0⟩ ∧
    find_class freshState (UserObj.mk 2 "2027" ∅).graduation_year =
      some ⟨"2027", ∅⟩ ∧
    flagMatches "f" (Challenge.mk 10 "f" 50 "normal" false 10 false ∅ 0).flag = true ∧
    (!(Challenge.mk 10 "f" 50 "normal" false 10 false ∅ 0).locked &&
      (!(is_unlocking (Challenge.mk 10 "f" 50 "normal" false 10 false ∅ 0)) ||
        is_available_for_class freshState
          (Challenge.mk 10 "f" 50 "normal" false 10 false ∅ 0)
          (UserObj.mk 2 "2027" ∅).graduation_year)) = true ∧
    10 ∉ (UserObj.mk 2 "2027" ∅).challenges_done ∧
    (((∀ r ∈ freshState.completions,
        ¬(r.challenge = 10 ∧ r.class_year = (UserObj.mk 2 "2027" ∅).graduation_year)) →
      (validate_flag freshState 2 10 "f" 9).2.points =
        get_current_points freshState (Challenge.mk 10 "f" 50 "normal" false 10 false ∅ 0) ∧
      ∃ r', (validate_flag freshState 2 10 "f" 9).1.completions =
          freshState.completions ++ [r'] ∧
        r'.points_earned =
          get_current_points freshState (Challenge.mk 10 "f" 50 "normal" false 10 false ∅ 0) ∧
        r'.first_completion_for_class = true) ∧
    ((∃ r ∈ freshState.completions,
        r.challenge = 10 ∧ r.class_year = (UserObj.mk 2 "2027" ∅).graduation_year) →
      (validate_flag freshState 2 10 "f" 9).2.points = 0 ∧
      (∃ r', (validate_flag freshState 2 10 "f" 9).1.completions =
          freshState.completions ++ [r'] ∧
        r'.user = 2 ∧ r'.challenge = 10 ∧
        r'.class_year = (UserObj.mk 2 "2027" ∅).graduation_year ∧
        r'.points_earned = 0 ∧ r'.first_completion_for_class = false) ∧
      ∃ u', find_user (validate_flag freshState 2 10 "f" 9).1 2 = some u' ∧
        10 ∈ u'.challenges_done)) :=
  ⟨by decide, by decide, by decide, by decide, by decide, by decide,
    c2_award_amount freshState 2 10 9 "f" ⟨2, "2027", ∅⟩
      ⟨10, "f", 50, "normal", false, 10, false, ∅, 0⟩ ⟨"2027", ∅⟩ (by decide)
      (by decide) (by decide) (by decide) (by decide) (by decide)⟩

lemma two_le_countP {α : Type} {l : List α} {p : α → Bool} {a b : α}
    (ha : a ∈ l) (hb : b ∈ l) (hab : a ≠ b)
    (hpa : p a = true) (hpb : p b = true) : 2 ≤ l.countP p := by
  obtain ⟨l1, l2, rfl⟩ := List.append_of_mem ha
  have hb2 : b ∈ l1 ∨ b ∈ l2 := by
    rcases List.mem_append.1 hb with h | h
    · exact Or.inl h
    · rcases List.mem_cons.1 h with h | h
      · exact (hab h.symm).elim
      · exact Or.inr h
  have h1 : (l1 ++ a :: l2).countP p = l1.countP p + (l2.countP p + 1) := by
    rw [List.countP_append, List.countP_cons, hpa]
    simp
  rw [h1]
  rcases hb2 with h | h
  · have := List.countP_pos_iff.2 ⟨b, h, hpb⟩
    omega
  · have := List.countP_pos_iff.2 ⟨b, h, hpb⟩
    omega

lemma class_get_points_append (l1 l2 : List Completion) (y : String) :
    class_get_points (l1 ++ l2) y =
      class_get_points l1 y + class_get_points l2 y := by
  simp [class_get_points, List.filter_append]

lemma class_get_points_cons (r : Completion) (l : List Completion) (y : String) :
    class_get_points (r :: l) y =
      (if r.class_year == y then r.points_earned else 0) + class_get_points l y := by
  simp only [class_get_points, List.filter_cons]
  split <;> simp

/-- Deleting the unique completion row with primary key `t` lowers a
cohort's derived total by exactly that row's `points_earned`. -/
lemma class_get_points_remove (l : List Completion) (t : Nat) (c : Completion)
    (y : String) (hc : c ∈ l) (hcid : c.cid = t)
    (huniq : l.countP (fun r => r.cid == t) = 1) (hy : c.class_year = y) :
    class_get_points (l.filter (fun r => r.cid != t)) y =
      class_get_points l y - c.points_earned := by
  obtain ⟨l1, l2, rfl⟩ := List.append_of_mem hc
  have hcnt : (l1 ++ c :: l2).countP (fun r => r.cid == t) =
      l1.countP (fun r => r.cid == t) + (l2.countP (fun r => r.cid == t) + 1) := by
    rw [List.countP_append, List.countP_cons]
    simp [hcid]
  rw [hcnt] at huniq
  have hz1 : l1.countP (fun r => r.cid == t) = 0 := by omega
  have hz2 : l2.countP (fun r => r.cid == t) = 0 := by omega
  have hf1 : l1.filter (fun r => r.cid != t) = l1 := by
    refine List.filter_eq_self.2 ?_
    intro r hr
    have := List.countP_eq_zero.1 hz1 r hr
    simp only [beq_iff_eq] at this
    simp [bne_iff_ne]
    exact this
  have hf2 : l2.filter (fun r => r.cid != t) = l2 := by
    refine List.filter_eq_self.2 ?_
    intro r hr
    have := List.countP_eq_zero.1 hz2 r hr
    simp only [beq_iff_eq] at this
    simp [bne_iff_ne]
    exact this
  rw [List.filter_append, List.filter_cons, hf1, hf2]
  have hcf : (c.cid != t) = false := by simp [bne_iff_ne, hcid]
  rw [hcf]
  simp only [Bool.false_eq_true, if_false]
  rw [class_get_points_append, class_get_points_append, class_get_points_cons]
  rw [if_pos (by simp [hy])]
  ring

lemma find_class_eq_of_classes_eq {s1 s2 : State} (h : s1.classes = s2.classes)
    (y : String) : find_class s1 y = find_class s2 y := by
  unfold find_class; rw [h]

lemma find_challenge_eq_of_challenges_eq {s1 s2 : State}
    (h : s1.challenges = s2.challenges) (cid : Nat) :
    find_challenge s1 cid = find_challenge s2 cid := by
  unfold find_challenge; rw [h]

/-- C7: invalidating a cohort's only completion of a challenge removes
exactly `points_earned` from the cohort's derived total, removes the
challenge from the cohort's completed set, and leaves an exclusive
challenge unlocked; invalidating a non-sole completion leaves the cohort's
completed set and every challenge row (hence the locked state) unchanged
while still erasing the participant's personal record, deleting the
completion row, and zeroing the originating correct submissions. -/
theorem c7_invalidation_effects (s : State) (target : Nat) (comp : Completion)
    (ch : Challenge) (cls : ClassObj) (u : UserObj)
    (hfind : s.completions.find? (fun r => r.cid == target) = some comp)
    (huniq : s.completions.countP (fun r => r.cid == target) = 1)
    (hch : find_challenge s comp.challenge = some ch)
    (hcls : find_class s comp.class_year = some cls)
    (hu : find_user s comp.user = some u) :
    (s.completions.countP (fun r =>
        r.challenge == comp.challenge && r.class_year == comp.class_year) = 1 →
      class_get_points (invalidate_completion s target).completions
          comp.class_year =
        class_get_points s.completions comp.class_year - comp.points_earned ∧
      (∃ cls', find_class (invalidate_completion s target) comp.class_year =
          some cls' ∧ comp.challenge ∉ cls'.challenges_completed) ∧
      (is_exclusive ch = true →
        ∃ ch', find_challenge (invalidate_completion s target) comp.challenge =
            some ch' ∧ ch'.locked = false)) ∧
    (2 ≤ s.completions.countP (fun r =>
        r.challenge == comp.challenge && r.class_year == comp.class_year) →
      (invalidate_completion s target).classes = s.classes ∧
      (invalidate_completion s target).challenges = s.challenges ∧
      (∃ u', find_user (invalidate_completion s target) comp.user = some u' ∧
        comp.challenge ∉ u'.challenges_done) ∧
      (invalidate_completion s target).completions.countP
        (fun r => r.cid == target) = 0 ∧
      ∀ x ∈ s.submissions, x.user = comp.user → x.challenge = comp.challenge →
        x.is_correct = true →
        ∃ x' ∈ (invalidate_completion s target).submissions,
          x'.sid = x.sid ∧ x'.points_awarded = 0) := by
  have hmem : comp ∈ s.completions := List.mem_of_find?_eq_some hfind
  have hcid : comp.cid = target := by
    have := List.find?_some hfind
    rwa [beq_iff_eq] at this
  have hcompl : (invalidate_completion s target).completions =
      s.completions.filter (fun r => r.cid != target) := by
    unfold invalidate_completion
    simp only [hfind]
    split <;> first | simp | (split <;> first | simp | (split <;> simp))
  constructor
  · intro hsole
    have hother : s.completions.any (fun r =>
        r.challenge == comp.challenge && r.class_year == comp.class_year &&
          r.cid != comp.cid) = false := by
      rw [List.any_eq_false]
      intro r hr hcon
      simp only [Bool.and_eq_true, beq_iff_eq, bne_iff_ne] at hcon
      obtain ⟨⟨h1, h2⟩, h3⟩ := hcon
      have h2le : 2 ≤ s.completions.countP (fun r =>
          r.challenge == comp.challenge && r.class_year == comp.class_year) := by
        refine two_le_countP hr hmem ?_ ?_ ?_
        · intro heq; exact h3 (by rw [heq])
        · simp [h1, h2]
        · simp
      omega
    refine ⟨?_, ?_, ?_⟩
    · rw [hcompl]
      exact class_get_points_remove s.completions target comp comp.class_year
        hmem hcid huniq rfl
    · have hclasses : (invalidate_completion s target).classes =
          (update_class s comp.class_year (fun c =>
            { c with challenges_completed :=
                c.challenges_completed.erase comp.challenge })).classes := by
        unfold invalidate_completion
        simp only [hfind, hother]
        simp only [Bool.not_false, if_true]
        split <;> simp [update_class]
      refine ⟨{ cls with challenges_completed :=
          cls.challenges_completed.erase comp.challenge }, ?_, ?_⟩
      · rw [find_class_eq_of_classes_eq hclasses]
        exact find_class_update_self s comp.class_year _ cls (fun v => rfl) hcls
      · exact Finset.not_mem_erase _ _
    · intro hex
      have hchs : (invalidate_completion s target).challenges =
          (update_challenge s comp.challenge
            (fun c => { c with locked := false })).challenges := by
        unfold invalidate_completion
        simp only [hfind, hother]
        simp only [Bool.not_false, if_true, hch, hex]
        simp [update_challenge]
      refine ⟨{ ch with locked := false }, ?_, ?_⟩
      · rw [find_challenge_eq_of_challenges_eq hchs]
        exact find_challenge_update_self s comp.challenge _ ch (fun v => rfl) hch
      · rfl
  · intro hmul
    have hother : s.completions.any (fun r =>
        r.challenge == comp.challenge && r.class_year == comp.class_year &&
          r.cid != comp.cid) = true := by
      by_contra hno
      rw [Bool.not_eq_true, List.any_eq_false] at hno
      have hle : s.completions.countP (fun r =>
          r.challenge == comp.challenge && r.class_year == comp.class_year) ≤
          s.completions.countP (fun r => r.cid == target) := by
        refine List.countP_mono_left ?_
        intro r hr hp
        have := hno r hr
        simp only [Bool.and_eq_true, beq_iff_eq, bne_iff_ne] at hp this ⊢
        rcases Classical.em (r.cid = comp.cid) with h | h
        · rw [h, hcid]
        · exact absurd ⟨hp, h⟩ this
      omega
    have hfin : invalidate_completion s target =
        { s with
          users := (update_user s comp.user (fun v =>
            { v with challenges_done :=
                v.challenges_done.erase comp.challenge })).users
          completions := s.completions.filter (fun r => r.cid != target)
          submissions := s.submissions.map (fun x =>
            if x.user == comp.user && x.challenge == comp.challenge &&
                x.is_correct then { x with points_awarded := 0 } else x) } := by
      unfold invalidate_completion
      simp only [hfind, hother]
      simp [update_user]
    refine ⟨?_, ?_, ?_, ?_, ?_⟩
    · rw [hfin]
    · rw [hfin]
    · have husers : (invalidate_completion s target).users =
          (update_user s comp.user (fun v =>
            { v with challenges_done :=
                v.challenges_done.erase comp.challenge })).users := by
        rw [hfin]
      refine ⟨{ u with challenges_done :=
          u.challenges_done.erase comp.challenge }, ?_, ?_⟩
      · rw [find_user_eq_of_users_eq husers]
        exact find_user_update_self s comp.user _ u (fun v => rfl) hu
      · exact Finset.not_mem_erase _ _
    · rw [hfin]
      simp only [List.countP_eq_zero]
      intro r hr
      have := (List.mem_filter.1 hr).2
      simp only [bne_iff_ne] at this
      simp [this]
    · intro x hx h1 h2 h3
      rw [hfin]
      refine ⟨{ x with points_awarded := 0 }, ?_, rfl, rfl⟩
      have : (fun x => if x.user == comp.user && x.challenge == comp.challenge &&
          x.is_correct then { x with points_awarded := 0 } else x) x =
          { x with points_awarded := 0 } := by
        simp [h1, h2, h3]
      rw [← this]
      exact List.mem_map_of_mem _ hx

/-- C7 witness: the theorem applied to `doneState` and its sole completion. -/
theorem c7_invalidation_effects_witness :
    doneState.completions.find? (fun r => r.cid == 1) =
      some ⟨1, 1, 10, "2026", 3, 50, true⟩ ∧
    doneState.completions.countP (fun r => r.cid == 1) = 1 ∧
    find_challenge doneState 10 =
      some ⟨10, "f", 50, "normal", false, 10, false, ∅, 0⟩ ∧
    find_class doneState "2026" = some ⟨"2026", {10}⟩ ∧
    find_user doneState 1 = some ⟨1, "2026", {10}⟩ ∧
    ((doneState.completions.countP
        (fun r => r.challenge == 10 && r.class_year == "2026") = 1 →
      class_get_points (invalidate_completion doneState 1).completions "2026" =
        class_get_points doneState.completions "2026" - 50 ∧
      (∃ cls', find_class (invalidate_completion doneState 1) "2026" =
          some cls' ∧ 10 ∉ cls'.challenges_completed) ∧
      (is_exclusive (Challenge.mk 10 "f" 50 "normal" false 10 false ∅ 0) = true →
        ∃ ch', find_challenge (invalidate_completion doneState 1) 10 =
            some ch' ∧ ch'.locked = false)) ∧
    (2 ≤ doneState.completions.countP
        (fun r => r.challenge == 10 && r.class_year == "2026") →
      (invalidate_completion doneState 1).classes = doneState.classes ∧
      (invalidate_completion doneState 1).challenges = doneState.challenges ∧
      (∃ u', find_user (invalidate_completion doneState 1) 1 = some u' ∧
        10 ∉ u'.challenges_done) ∧
      (invalidate_completion doneState 1).completions.countP
        (fun r => r.cid == 1) = 0 ∧
      ∀ x ∈ doneState.submissions, x.user = 1 → x.challenge = 10 →
        x.is_correct = true →
        ∃ x' ∈ (invalidate_completion doneState 1).submissions,
          x'.sid = x.sid ∧ x'.points_awarded = 0)) :=
  ⟨by decide, by decide, by decide, by decide, by decide,
    c7_invalidation_effects doneState 1 ⟨1, 1, 10, "2026", 3, 50, true⟩
      ⟨10, "f", 50, "normal", false, 10, false, ∅, 0⟩ ⟨"2026", {10}⟩
      ⟨1, "2026", {10}⟩ (by decide) (by decide) (by decide) (by decide)
      (by decide)⟩

/-- C9 (amended): the submission-invalidation action zeroes the points and
sets `invalidated`, the invalidating actor and the timestamp on the
originating SubmissionRecord, keeping the row; the completion-invalidation
action zeroes the points of the participant's correct submissions for the
challenge but leaves their `invalidated` flag, actor and timestamp
untouched; neither action deletes a submission row. -/
theorem c9_invalidation_audit_fields (s : State) (tS tC actor now : Nat)
    (sub : Submission) (comp : Completion) (u : UserObj)
    (hsub : s.submissions.find? (fun x => x.sid == tS) = some sub)
    (hcorr : sub.is_correct = true) (hpos : sub.points_awarded > 0)
    (hu : find_user s sub.user = some u)
    (hcomp : s.completions.find? (fun r => r.cid == tC) = some comp) :
    ((invalidate_submission s tS actor now).submissions.length =
        s.submissions.length ∧
      ∃ x ∈ (invalidate_submission s tS actor now).submissions,
        x.sid = sub.sid ∧ x.points_awarded = 0 ∧ x.invalidated = true ∧
        x.invalidated_by = some actor ∧ x.invalidated_at = some now) ∧
    ((invalidate_completion s tC).submissions.length =
        s.submissions.length ∧
      ∀ x ∈ s.submissions, x.user = comp.user → x.challenge = comp.challenge →
        x.is_correct = true →
        ∃ x' ∈ (invalidate_completion s tC).submissions,
          x'.sid = x.sid ∧ x'.points_awarded = 0 ∧
          x'.invalidated = x.invalidated ∧
          x'.invalidated_by = x.invalidated_by ∧
          x'.invalidated_at = x.invalidated_at) := by
  have hmemS : sub ∈ s.submissions := List.mem_of_find?_eq_some hsub
  have hsid : (sub.sid == tS) = true := by
    have h := List.find?_some hsub
    exact h
  have hsubs : (invalidate_submission s tS actor now).submissions =
      s.submissions.map (fun x =>
        if x.sid == tS then
          { x with
            points_awarded := 0
            invalidated := true
            invalidated_by := some actor
            invalidated_at := some now }
        else x) := by
    unfold invalidate_submission
    simp only [hsub, hu]
    split
    · split
      · split
        · split <;> rfl
        · rfl
      · rfl
    · rename_i h
      exact absurd (by simp [hcorr, hpos]) h
  have hcsubs : (invalidate_completion s tC).submissions =
      s.submissions.map (fun x =>
        if x.user == comp.user && x.challenge == comp.challenge &&
            x.is_correct then { x with points_awarded := 0 } else x) := by
    unfold invalidate_completion
    simp only [hcomp]
    split
    · split
      · split <;> rfl
      · rfl
    · rfl
  refine ⟨⟨?_, ?_⟩, ⟨?_, ?_⟩⟩
  · rw [hsubs, List.length_map]
  · rw [hsubs]
    refine ⟨{ sub with
        points_awarded := 0
        invalidated := true
        invalidated_by := some actor
        invalidated_at := some now }, ?_, rfl, rfl, rfl, rfl, rfl⟩
    have : (fun x => if x.sid == tS then
        ({ x with
          points_awarded := 0
          invalidated := true
          invalidated_by := some actor
          invalidated_at := some now } : Submission)
        else x) sub =
        { sub with
          points_awarded := 0
          invalidated := true
          invalidated_by := some actor
          invalidated_at := some now } := by
      simp [hsid]
    rw [← this]
    exact List.mem_map_of_mem _ hmemS
  · rw [hcsubs, List.length_map]
  · intro x hx h1 h2 h3
    rw [hcsubs]
    refine ⟨{ x with points_awarded := 0 }, ?_, rfl, rfl, rfl, rfl, rfl⟩
    have : (fun x => if x.user == comp.user && x.challenge == comp.challenge &&
        x.is_correct then ({ x with points_awarded := 0 } : Submission) else x) x =
        { x with points_awarded := 0 } := by
      simp [h1, h2, h3]
    rw [← this]
    exact List.mem_map_of_mem _ hx

/-- C9 counterexample: invalidating `doneState`'s completion (a prior
50-point award) zeroes the originating submission's points but leaves
`invalidated = false` with no actor and no timestamp, so this invalidation
does not set `invalidated = true`. -/
theorem c9_invalidation_audit_fields_counterexample :
    (∃ r ∈ doneState.completions, r.cid = 1 ∧ r.points_earned = 50) ∧
    ∃ x ∈ (invalidate_completion doneState 1).submissions,
      x.sid = 1 ∧ x.points_awarded = 0 ∧ x.invalidated = false ∧
      x.invalidated_by = none ∧ x.invalidated_at = none := by
  decide

/-- C9 witness: the amended theorem applied to `doneState`. -/
theorem c9_invalidation_audit_fields_witness :
    doneState.submissions.find? (fun x => x.sid == 1) =
      some ⟨1, 1, 10, true, 50, false, none, none⟩ ∧
    (Submission.mk 1 1 10 true 50 false none none).is_correct = true ∧
    (Submission.mk 1 1 10 true 50 false none none).points_awarded > 0 ∧
    find_user doneState 1 = some ⟨1, "2026", {10}⟩ ∧
    doneState.completions.find? (fun r => r.cid == 1) =
      some ⟨1, 1, 10, "2026", 3, 50, true⟩ ∧
    (((invalidate_submission doneState 1 7 9).submissions.length =
        doneState.submissions.length ∧
      ∃ x ∈ (invalidate_submission doneState 1 7 9).submissions,
        x.sid = 1 ∧ x.points_awarded = 0 ∧ x.invalidated = true ∧
        x.invalidated_by = some 7 ∧ x.invalidated_at = some 9) ∧
    ((invalidate_completion doneState 1).submissions.length =
        doneState.submissions.length ∧
      ∀ x ∈ doneState.submissions, x.user = 1 → x.challenge = 10 →
        x.is_correct = true →
        ∃ x' ∈ (invalidate_completion doneState 1).submissions,
          x'.sid = x.sid ∧ x'.points_awarded = 0 ∧
          x'.invalidated = x.invalidated ∧
          x'.invalidated_by = x.invalidated_by ∧
          x'.invalidated_at = x.invalidated_at)) :=
  ⟨by decide, by decide, by decide, by decide, by decide,
    c9_invalidation_audit_fields doneState 1 1 7 9
      ⟨1, 1, 10, true, 50, false, none, none⟩ ⟨1, 1, 10, "2026", 3, 50, true⟩
      ⟨1, "2026", {10}⟩ (by decide) (by decide) (by decide) (by decide)
      (by decide)⟩

/-- Appending a fresh completion whose `first_completion_for_class` flag is
the negation of "the cohort already has a completion" — exactly what the
submission path computes — preserves the first-for-cohort invariant,
provided the new timestamp is strictly later than all existing ones. -/
lemma firstForCohortInvariant_append {l : List Completion} {c : Completion}
    (hInv : FirstForCohortInvariant l)
    (hts : ∀ r ∈ l, r.timestamp < c.timestamp)
    (hfc : c.first_completion_for_class =
      !(l.any (fun r => r.challenge == c.challenge &&
        r.class_year == c.class_year))) :
    FirstForCohortInvariant (l ++ [c]) := by
  obtain ⟨hone, hearly⟩ := hInv
  have hcount_app : ∀ ch y, first_count (l ++ [c]) ch y =
      first_count l ch y +
        (if c.challenge == ch && c.class_year == y &&
            c.first_completion_for_class then 1 else 0) := by
    intro ch y
    unfold first_count
    rw [List.countP_append]
    simp [List.countP_cons]
  by_cases hpair : l.any (fun r => r.challenge == c.challenge &&
      r.class_year == c.class_year) = true
  · have hcf : c.first_completion_for_class = false := by rw [hfc, hpair]; rfl
    obtain ⟨r0, hr0, hp0⟩ := List.any_eq_true.1 hpair
    simp only [Bool.and_eq_true, beq_iff_eq] at hp0
    constructor
    · intro r hr
      rcases List.mem_append.1 hr with hrl | hrc
      · rw [hcount_app]
        rw [hcf]
        simp only [Bool.and_false, Bool.false_eq_true, if_false]
        exact hone r hrl
      · have hrc' : r = c := by simpa using hrc
        subst hrc'
        rw [hcount_app]
        rw [hcf]
        simp only [Bool.and_false, Bool.false_eq_true, if_false]
        rw [← hp0.1, ← hp0.2]
        exact hone r0 hr0
    · intro r hr hrf r' hr' hch hy hr'f
      rcases List.mem_append.1 hr with hrl | hrc
      · rcases List.mem_append.1 hr' with hr'l | hr'c
        · exact hearly r hrl hrf r' hr'l hch hy hr'f
        · have : r' = c := by simpa using hr'c
          subst this
          exact hts r hrl
      · have : r = c := by simpa using hrc
        subst this
        rw [hcf] at hrf
        cases hrf
  · have hpairf : l.any (fun r => r.challenge == c.challenge &&
        r.class_year == c.class_year) = false := by
      rwa [Bool.not_eq_true] at hpair
    have hcf : c.first_completion_for_class = true := by
      rw [hfc, hpairf]; rfl
    have hnopair : ∀ r ∈ l,
        ¬(r.challenge = c.challenge ∧ r.class_year = c.class_year) := by
      intro r hr hcontra
      apply hpair
      exact List.any_eq_true.2 ⟨r, hr, by simp [hcontra.1, hcontra.2]⟩
    constructor
    · intro r hr
      rcases List.mem_append.1 hr with hrl | hrc
      · rw [hcount_app]
        have hcond : (c.challenge == r.challenge && c.class_year == r.class_year &&
            c.first_completion_for_class) = false := by
          by_cases h1 : c.challenge = r.challenge
          · by_cases h2 : c.class_year = r.class_year
            · exact absurd ⟨h1.symm, h2.symm⟩ (hnopair r hrl)
            · simp [h2]
          · simp [h1]
        rw [hcond]
        simp only [Bool.false_eq_true, if_false]
        exact hone r hrl
      · have : r = c := by simpa using hrc
        subst this
        rw [hcount_app]
        have hz : first_count l r.challenge r.class_year = 0 := by
          unfold first_count
          rw [List.countP_eq_zero]
          intro r' hr' hp
          simp only [Bool.and_eq_true, beq_iff_eq] at hp
          exact hnopair r' hr' ⟨hp.1.1, hp.1.2⟩
        rw [hz, hcf]
        simp
    · intro r hr hrf r' hr' hch hy hr'f
      rcases List.mem_append.1 hr with hrl | hrc
      · rcases List.mem_append.1 hr' with hr'l | hr'c
        · exact hearly r hrl hrf r' hr'l hch hy hr'f
        · have : r' = c := by simpa using hr'c
          subst this
          exact hts r hrl
      · have hrcc : r = c := by simpa using hrc
        rcases List.mem_append.1 hr' with hr'l | hr'c
        · rw [hrcc] at hch hy
          exact absurd ⟨hch, hy⟩ (hnopair r' hr'l)
        · have hr'cc : r' = c := by simpa using hr'c
          rw [hr'cc, hcf] at hr'f
          cases hr'f

/-- Removing rows can only lose `first_completion_for_class` records, so
the weak invariant survives any deletion. -/
lemma weakFirstForCohortInvariant_filter (l : List Completion)
    (p : Completion → Bool) (hInv : WeakFirstForCohortInvariant l) :
    WeakFirstForCohortInvariant (l.filter p) := by
  obtain ⟨hone, hearly⟩ := hInv
  constructor
  · intro r hr
    have hrl := (List.mem_filter.1 hr).1
    have hle : first_count (l.filter p) r.challenge r.class_year ≤
        first_count l r.challenge r.class_year := by
      unfold first_count
      rw [List.countP_filter]
      exact List.countP_mono_left (fun a ha h => by
        rw [Bool.and_eq_true] at h; exact h.1)
    exact le_trans hle (hone r hrl)
  · intro r hr hrf r' hr' hch hy hr'f
    exact hearly r (List.mem_filter.1 hr).1 hrf r' (List.mem_filter.1 hr').1
      hch hy hr'f

/-- The completions table after `validate_flag`: either untouched, or
extended by exactly one fresh record carrying `timestamp = now` and a
`first_completion_for_class` flag that is true iff the cohort had no
completion of the challenge. -/
lemma validate_flag_completions_cases (s : State) (uid chid : Nat)
    (flag : String) (now : Nat) :
    (validate_flag s uid chid flag now).1.completions = s.completions ∨
    ∃ (u : UserObj) (crec : Completion), find_user s uid = some u ∧
      (validate_flag s uid chid flag now).1.completions =
        s.completions ++ [crec] ∧
      crec.challenge = chid ∧ crec.class_year = u.graduation_year ∧
      crec.timestamp = now ∧
      crec.first_completion_for_class =
        !(s.completions.any (fun r =>
          r.challenge == chid && r.class_year == u.graduation_year)) := by
  cases hu : find_user s uid with
  | none => left; simp [validate_flag, hu]
  | some u =>
    cases hc : find_challenge s chid with
    | none => left; simp [validate_flag, hu, hc]
    | some c =>
      cases hcorrect : flagMatches flag c.flag with
      | false => left; simp [validate_flag, hu, hc, hcorrect]
      | true =>
        by_cases hgate : (!c.locked && (!(is_unlocking c) ||
            is_available_for_class s c u.graduation_year)) = true
        · by_cases hdone : chid ∈ u.challenges_done
          · left; simp [validate_flag, hu, hc, hcorrect, hgate, hdone]
          · cases hcls : find_class s u.graduation_year with
            | none =>
              left; simp [validate_flag, hu, hc, hcorrect, hgate, hdone, hcls]
            | some cls =>
              right
              unfold validate_flag
              simp only [hu, hc, hcorrect, hgate]
              rw [if_neg hdone]
              simp only [hcls]
              simp
        · have hgate' : (!c.locked && (!(is_unlocking c) ||
              is_available_for_class s c u.graduation_year)) = false := by
            rwa [Bool.not_eq_true] at hgate
          left; simp [validate_flag, hu, hc, hcorrect, hgate']

/-- The completions table after `invalidate_completion`: unchanged when the
target row does not exist, otherwise the target row is filtered out. -/
lemma invalidate_completion_completions_cases (s : State) (target : Nat) :
    (invalidate_completion s target).completions = s.completions ∨
    (invalidate_completion s target).completions =
      s.completions.filter (fun r => r.cid != target) := by
  unfold invalidate_completion
  cases hfind : s.completions.find? (fun r => r.cid == target) with
  | none => left; simp only [hfind]
  | some comp =>
    right
    simp only [hfind]
    split
    · split
      · split <;> simp
      · simp
    · simp

/-- C5 (amended): recording a completion through `validate_flag` preserves
the full first-for-cohort invariant (exactly one `first_for_cohort` record
per inhabited (challenge, cohort) pair, strictly earliest), given a fresh
timestamp; invalidating a completion preserves only the weaker invariant
(at most one such record, strictly earliest when present), because the
admin action deletes the row without promoting a successor. -/
theorem c5_first_for_cohort_invariant :
    (∀ (s : State) (uid chid : Nat) (flag : String) (now : Nat),
      FirstForCohortInvariant s.completions →
      (∀ r ∈ s.completions, r.timestamp < now) →
      FirstForCohortInvariant (validate_flag s uid chid flag now).1.completions) ∧
    (∀ (s : State) (target : Nat),
      WeakFirstForCohortInvariant s.completions →
      WeakFirstForCohortInvariant (invalidate_completion s target).completions) := by
  constructor
  · intro s uid chid flag now hInv hts
    rcases validate_flag_completions_cases s uid chid flag now with
      h | ⟨u, crec, hu, heq, h1, h2, h3, h4⟩
    · rw [h]; exact hInv
    · rw [heq]
      apply firstForCohortInvariant_append hInv
      · intro r hr
        rw [h3]
        exact hts r hr
      · rw [h4, h1, h2]
  · intro s target hInv
    rcases invalidate_completion_completions_cases s target with h | h
    · rw [h]; exact hInv
    · rw [h]
      exact weakFirstForCohortInvariant_filter s.completions _ hInv

/-- A cohort with two completions of challenge 10: the earlier one is the
scoring `first_completion_for_class` record, the later one carries 0
points. -/
def twoCompState : State :=
  ⟨[⟨10, "f", 50, "normal", false, 10, false, ∅, 0⟩], [⟨"2026", {10}⟩],
    [⟨1, "2026", {10}⟩, ⟨2, "2026", {10}⟩],
    [⟨1, 1, 10, "2026", 1, 50, true⟩, ⟨2, 2, 10, "2026", 2, 0, false⟩],
    []⟩

/-- C5 counterexample: the invariant as claimed (exactly one
`first_for_cohort` record per inhabited pair) holds before but not after
`invalidate_completion` deletes the cohort's first completion while the
second remains, so invalidation does not preserve the claimed invariant. -/
theorem c5_first_for_cohort_invariant_counterexample :
    FirstForCohortInvariant twoCompState.completions ∧
    ¬FirstForCohortInvariant
      (invalidate_completion twoCompState 1).completions := by
  decide

/-- C5 witness: both halves of the amended theorem applied to concrete
stores. -/
theorem c5_first_for_cohort_invariant_witness :
    FirstForCohortInvariant freshState.completions ∧
    (∀ r ∈ freshState.completions, r.timestamp < 9) ∧
    FirstForCohortInvariant (validate_flag freshState 2 10 "f" 9).1.completions ∧
    WeakFirstForCohortInvariant twoCompState.completions ∧
    WeakFirstForCohortInvariant
      (invalidate_completion twoCompState 1).completions :=
  ⟨by decide, by decide,
    c5_first_for_cohort_invariant.1 freshState 2 10 "f" 9 (by decide) (by decide),
    by decide,
    c5_first_for_cohort_invariant.2 twoCompState 1 (by decide)⟩

lemma would_create_cycle_succ (s : State) (x : Nat) :
    ∀ (n : Nat) (L : List Nat), would_create_cycle n s x L = true →
      would_create_cycle (n + 1) s x L = true := by
  intro n
  induction n with
  | zero =>
    intro L h
    exact absurd h (by simp [would_create_cycle])
  | succ n ih =>
    intro L h
    rw [would_create_cycle] at h ⊢
    rw [List.any_eq_true] at h ⊢
    obtain ⟨req, hreq, hbody⟩ := h
    refine ⟨req, hreq, ?_⟩
    cases hfc : find_challenge s req with
    | none =>
      rw [hfc] at hbody
      exact hbody
    | some rc =>
      rw [hfc] at hbody
      simp only [Bool.or_eq_true, Bool.and_eq_true] at hbody ⊢
      rcases hbody with h1 | ⟨hun, hor⟩
      · exact Or.inl h1
      · rcases hor with hmem | hrec
        · exact Or.inr ⟨hun, Or.inl hmem⟩
        · exact Or.inr ⟨hun, Or.inr (ih _ hrec)⟩

lemma would_create_cycle_le {s : State} {x n m : Nat} {L : List Nat}
    (hnm : n ≤ m) (h : would_create_cycle n s x L = true) :
    would_create_cycle m s x L = true := by
  induction hnm with
  | refl => exact h
  | step _ ih => exact would_create_cycle_succ s x _ L ih

/-- If the edited challenge is transitively required (in the sense of the
specification's data model) by some member of a prerequisite list, the
form's recursive check finds it, given enough recursion budget. -/
lemma reaches_would_create_cycle {s : State} {y x : Nat}
    (h : Relation.TransGen (SpecRequires s) y x) :
    ∀ L : List Nat, y ∈ L → ∃ n, would_create_cycle n s x L = true := by
  induction h using Relation.TransGen.head_induction_on with
  | base hyx =>
    intro L hyL
    obtain ⟨ch, hfc, hun, hmem⟩ := hyx
    refine ⟨1, ?_⟩
    rw [would_create_cycle, List.any_eq_true]
    refine ⟨_, hyL, ?_⟩
    rw [hfc]
    simp [hun, hmem]
  | ih hyz htail ihz =>
    intro L hyL
    obtain ⟨ch, hfc, hun, hmem⟩ := hyz
    obtain ⟨n, hn⟩ := ihz (ch.required_challenges.sort (· ≤ ·))
      ((Finset.mem_sort _).2 hmem)
    refine ⟨n + 1, ?_⟩
    rw [would_create_cycle, List.any_eq_true]
    refine ⟨_, hyL, ?_⟩
    rw [hfc]
    simp [hun, hn]

/-- C6: editing an unlocking challenge X to require Y while Y already
directly or transitively requires X (prerequisites being carried by
unlocking challenges, per the data model) is rejected by the form's
validation, with the store returned unchanged — nothing is persisted.  The
recursion budget `f0` exists because the source recursion is unbounded. -/
theorem c6_cycle_edit_rejected (s : State) (x y : Nat)
    (new_required : Finset Nat) (new_count : Nat) (hy : y ∈ new_required)
    (hcyc : Relation.TransGen (SpecRequires s) y x) :
    ∃ f0 : Nat, ∀ f, f0 ≤ f →
      (apply_prerequisite_edit f s x "unlocking" new_required new_count).2 =
        false ∧
      (apply_prerequisite_edit f s x "unlocking" new_required new_count).1 =
        s := by
  obtain ⟨n, hn⟩ := reaches_would_create_cycle hcyc
    (new_required.sort (· ≤ ·)) ((Finset.mem_sort _).2 hy)
  refine ⟨n, ?_⟩
  intro f hf
  have hwcc : would_create_cycle f s x (new_required.sort (· ≤ ·)) = true :=
    would_create_cycle_le hf hn
  have hcard : (new_required.card != 0) = true := by
    simp only [bne_iff_ne, Ne]
    exact Finset.card_ne_zero_of_mem hy
  have hred : apply_prerequisite_edit f s x "unlocking" new_required new_count =
      (s, false) := by
    unfold apply_prerequisite_edit
    simp [hwcc, hcard]
  rw [hred]
  exact ⟨rfl, rfl⟩

/-- Two unlocking challenges: challenge 2 already requires challenge 1. -/
def cycleState : State :=
  ⟨[⟨1, "a", 10, "unlocking", false, 10, false, ∅, 0⟩,
    ⟨2, "b", 10, "unlocking", false, 10, false, {1}, 0⟩], [], [], [], []⟩

/-- C6 witness: making challenge 1 require challenge 2, while challenge 2
already requires challenge 1, is rejected and the store is unchanged. -/
theorem c6_cycle_edit_rejected_witness :
    2 ∈ ({2} : Finset Nat) ∧
    Relation.TransGen (SpecRequires cycleState) 2 1 ∧
    ∃ f0 : Nat, ∀ f, f0 ≤ f →
      (apply_prerequisite_edit f cycleState 1 "unlocking" {2} 0).2 = false ∧
      (apply_prerequisite_edit f cycleState 1 "unlocking" {2} 0).1 =
        cycleState :=
  ⟨by decide,
    Relation.TransGen.single
      ⟨⟨2, "b", 10, "unlocking", false, 10, false, {1}, 0⟩, by decide,
        by decide, by decide⟩,
    c6_cycle_edit_rejected cycleState 1 2 {2} 0 (by decide)
      (Relation.TransGen.single
        ⟨⟨2, "b", 10, "unlocking", false, 10, false, {1}, 0⟩, by decide,
          by decide, by decide⟩)⟩

end Scav
